import Mathlib

/-!
Verification development for the drawstuff-modern rendering library.

The definitions below are shallow embeddings of the C++ sources:
  * src/src/mesh_utils.cpp       (icosphere weld table, crease-angle rebuild)
  * src/src/primitive_meshes.cpp (icosphere builder, capsule builders, welding)
  * src/src/drawstuff_core.cpp   (per-frame instance batching and flush)
  * src/src/drawstuffCompat.cpp  (C API state checks, dsError)
  * src/drawstuff_core.hpp       (light constants, per-primitive state checks,
                                  drawSphereShadow center mapping)

Numeric conventions: C++ `float` arithmetic is embedded as exact arithmetic in
a linear ordered field.  Functions whose source calls `sqrtf` (through
`glm::normalize`, `std::sqrt`) are parameterized over an explicit square-root
function `s : α → α`; theorems that do not depend on square-root values are
proved for every such `s`, and theorems about exact geometry instantiate
`α := ℝ`, `s := Real.sqrt`.  For executable instantiations at `α := ℚ` we use
`qsqrt`, which returns the exact square root whenever the radicand is a square
of a rational (all cases whose values feed back into control flow in the
concrete runs evaluated below) and is otherwise an unused placeholder.
Machine integers are embedded as `ℕ` / `ℤ` (the quantities involved stay far
below the 32-bit range), `std::vector` as `List`, `unordered_map` as an
association list (the source only inserts fresh keys and looks up by key, so
bucket order is irrelevant), and process-terminating error paths
(`dsError` / `fatalError` / `internalError`, which print and `exit`/`abort`)
as `Except.error`.
-/

set_option maxRecDepth 8000
set_option maxHeartbeats 3000000

/- The core marks the rational-number operations irreducible, which blocks
the evaluation of concrete runs by `decide`; re-enable plain unfolding for
this file.  This has no effect on soundness: the kernel checks all proofs
and ignores reducibility attributes. -/
set_option allowUnsafeReducibility true
attribute [local semireducible] Rat.mul Rat.add Rat.sub Rat.div Rat.neg
  Rat.inv

namespace Drawstuff

/-- 3-component vector, embedding `glm::vec3`. -/
structure Vec3 (α : Type) where
  x : α
  y : α
  z : α
  deriving DecidableEq, Repr

/-- Componentwise addition of `glm::vec3`. -/
def Vec3.add {α : Type} [Add α] (v w : Vec3 α) : Vec3 α :=
  ⟨v.x + w.x, v.y + w.y, v.z + w.z⟩

instance {α : Type} [Add α] : Add (Vec3 α) := ⟨Vec3.add⟩

/-- Componentwise subtraction of `glm::vec3`. -/
def Vec3.sub {α : Type} [Sub α] (v w : Vec3 α) : Vec3 α :=
  ⟨v.x - w.x, v.y - w.y, v.z - w.z⟩

instance {α : Type} [Sub α] : Sub (Vec3 α) := ⟨Vec3.sub⟩

/-- Scalar multiplication of `glm::vec3`. -/
def Vec3.smul {α : Type} [Mul α] (c : α) (v : Vec3 α) : Vec3 α :=
  ⟨c * v.x, c * v.y, c * v.z⟩

/-- `glm::dot`. -/
def Vec3.dot {α : Type} [Mul α] [Add α] (v w : Vec3 α) : α :=
  v.x * w.x + v.y * w.y + v.z * w.z

/-- `glm::cross`. -/
def Vec3.cross {α : Type} [Mul α] [Sub α] (v w : Vec3 α) : Vec3 α :=
  ⟨v.y * w.z - v.z * w.y, v.z * w.x - v.x * w.z, v.x * w.y - v.y * w.x⟩

/-- Squared length `glm::dot(v, v)`. -/
def Vec3.quadrance {α : Type} [Mul α] [Add α] (v : Vec3 α) : α :=
  v.dot v

/-- The zero vector `glm::vec3(0)`. -/
def Vec3.zero {α : Type} [OfNat α 0] : Vec3 α := ⟨0, 0, 0⟩

/-- `glm::normalize`, with the square root supplied explicitly: the result is
`v` scaled by the reciprocal of `s (dot v v)`. -/
def vnormalize {α : Type} [Field α] (s : α → α) (v : Vec3 α) : Vec3 α :=
  Vec3.smul (1 / s v.quadrance) v

/-- Fuel-driven integer square root (round down); structurally recursive so
that concrete evaluations reduce inside the kernel.  The fuel only needs to
exceed `log₄ n`, so passing `n` itself is always sufficient. -/
def isqrtFuel : ℕ → ℕ → ℕ
  | 0, _ => 0
  | fuel + 1, n =>
      if n < 2 then n
      else
        let r := 2 * isqrtFuel fuel (n / 4)
        if (r + 1) * (r + 1) ≤ n then r + 1 else r

/-- Exact square root of a natural number, when it is a perfect square. -/
def natSqrtExact? (n : ℕ) : Option ℕ :=
  let r := isqrtFuel n n
  if r * r = n then some r else none

/-- Exact square root of a rational, when it is a square of a rational. -/
def ratSqrt? (q : ℚ) : Option ℚ :=
  if q < 0 then none
  else
    match natSqrtExact? q.num.toNat, natSqrtExact? q.den with
    | some a, some b => some ((a : ℚ) / (b : ℚ))
    | _, _ => none

/-- Executable square-root stand-in at `α := ℚ`: exact on rational squares,
identity elsewhere (a placeholder value; no theorem below depends on the
placeholder branch). -/
def qsqrt (q : ℚ) : ℚ :=
  (ratSqrt? q).getD q

-- ===========================================================================
-- Shadow projector (claim C4)
-- src/drawstuff_core.hpp lines 100-102: light vector, LIGHTZ implicitly 1
-- ===========================================================================

/-- `LIGHTX` from src/drawstuff_core.hpp line 101. -/
def LIGHTX : ℚ := 1

/-- `LIGHTY` from src/drawstuff_core.hpp line 102 (`0.4f`). -/
def LIGHTY : ℚ := 0.4

/-- Homogeneous 4-vector. -/
structure Vec4 where
  x : ℚ
  y : ℚ
  z : ℚ
  w : ℚ
  deriving DecidableEq, Repr

/-- A 4x4 matrix given by its four rows. -/
structure Mat4 where
  r0 : Vec4
  r1 : Vec4
  r2 : Vec4
  r3 : Vec4
  deriving DecidableEq, Repr

/-- Matrix-vector product of a row-major `Mat4` with a `Vec4`. -/
def Mat4.mulVec (m : Mat4) (v : Vec4) : Vec4 :=
  let row := fun (r : Vec4) => r.x * v.x + r.y * v.y + r.z * v.z + r.w * v.w
  ⟨row m.r0, row m.r1, row m.r2, row m.r3⟩

/-- Modelled from the spec: the shadow projection matrix `shadowProject_`.
The member is declared in src/drawstuff_core.hpp line 461 and used in
src/src/drawstuff_core.cpp lines 1504-1505, but the body of
`initShadowProjection` that fills it is not among the provided sources.
Following spec section 4.5, it is the constant matrix projecting along the
light direction `(LIGHTX, LIGHTY, 1)` onto the plane `z = 0`. -/
def shadowProject : Mat4 :=
  ⟨⟨1, 0, -LIGHTX, 0⟩,
   ⟨0, 1, -LIGHTY, 0⟩,
   ⟨0, 0, 0, 0⟩,
   ⟨0, 0, 0, 1⟩⟩

/-- The sphere-shadow center mapping of `drawSphereShadow`
(src/drawstuff_core.hpp lines 713-714):
`cx = px - LIGHTX * pz; cy = py - LIGHTY * pz`. -/
def drawSphereShadowCenter (px py pz : ℚ) : ℚ × ℚ :=
  (px - LIGHTX * pz, py - LIGHTY * pz)

-- ===========================================================================
-- Simulation-state machine and fatal usage errors (claim C8)
-- src/src/drawstuffCompat.cpp lines 31-54, 365-372; src/drawstuff_core.hpp
-- lines 58-63, 161, 212-235
-- ===========================================================================

/-- `enum SimulationState` (src/drawstuff_core.hpp lines 58-63), together
with the `SIM_STATE_FINISHED` value used by src/src/drawstuff_core.cpp
(lines 1147, 1160, 1276). -/
inductive SimulationState where
  | notStarted
  | running
  | drawing
  | finished
  deriving DecidableEq, Repr

/-- `DrawstuffApp::isInsideSimulationLoop` (src/drawstuff_core.hpp line 161):
`current_state == SIM_STATE_RUNNING || current_state == SIM_STATE_DRAWING`. -/
def isInsideSimulationLoop (s : SimulationState) : Bool :=
  decide (s = SimulationState.running) || decide (s = SimulationState.drawing)

/-- `with_app` (src/src/drawstuffCompat.cpp lines 44-54): if the app is not
inside the simulation loop, `dsError` is called, which prints and then
`exit(EXIT_FAILURE)` (lines 365-372) — embedded as `Except.error`; otherwise
the wrapped body runs. -/
def with_app {σ : Type} (s : SimulationState) (func : σ → Except String σ)
    (st : σ) : Except String σ :=
  if isInsideSimulationLoop s then func st
  else Except.error "drawing function called outside simulation loop"

/-- A primitive draw entry point such as `dsDrawSphere`
(src/src/drawstuffCompat.cpp lines 188-196) combined with the state check at
the top of `DrawstuffApp::drawSphere` (src/drawstuff_core.hpp lines 234-235):
outside `SIM_STATE_DRAWING` the body calls `fatalError`, which prints and
`exit(EXIT_FAILURE)` — embedded as `Except.error`.  The actual recording step
is abstracted as `rec`, so the theorem covers every possible body. -/
def dsDrawPrimitive {σ : Type} (s : SimulationState) (rec : σ → σ)
    (st : σ) : Except String σ :=
  with_app s
    (fun st1 =>
      if s = SimulationState.drawing then Except.ok (rec st1)
      else Except.error "drawing function called outside simulation loop")
    st

-- ===========================================================================
-- Per-frame instance batching and flush (claim C3)
-- src/src/drawstuff_core.cpp lines 1374-1605
-- ===========================================================================

/-- The six per-kind instance lists of src/src/drawstuff_core.cpp
lines 351-356. -/
inductive PrimKind where
  | sphere
  | box
  | cylinder
  | capsuleCapTop
  | capsuleCapBottom
  | capsuleCylinder
  deriving DecidableEq, Repr

/-- The six per-kind instance lists (`sphereInstances_` … ), with the
instance-record type left abstract. -/
structure InstanceLists (σ : Type) where
  sphereInstances : List σ
  boxInstances : List σ
  cylinderInstances : List σ
  capsuleCapTopInstances : List σ
  capsuleCapBottomInstances : List σ
  capsuleCylinderInstances : List σ
  deriving DecidableEq, Repr

/-- Select the list recorded for one kind. -/
def InstanceLists.get {σ : Type} (st : InstanceLists σ) : PrimKind → List σ
  | PrimKind.sphere => st.sphereInstances
  | PrimKind.box => st.boxInstances
  | PrimKind.cylinder => st.cylinderInstances
  | PrimKind.capsuleCapTop => st.capsuleCapTopInstances
  | PrimKind.capsuleCapBottom => st.capsuleCapBottomInstances
  | PrimKind.capsuleCylinder => st.capsuleCylinderInstances

/-- One GPU submission issued by the flush: either a bulk instance-buffer
upload (`uploadInstanceBuffer`) or one instanced draw
(`glDrawElementsInstanced`), tagged with whether it belongs to the shadow
pass. -/
inductive GpuSubmission (σ : Type) where
  | upload (kind : PrimKind) (data : List σ)
  | drawInstanced (shadowPass : Bool) (kind : PrimKind) (instanceCount : ℕ)
  deriving DecidableEq, Repr

/-- The upload block of `DrawstuffApp::renderFrame`
(src/src/drawstuff_core.cpp lines 1374-1401): each non-empty list is uploaded
once, in this fixed order. -/
def uploadPass {σ : Type} (st : InstanceLists σ) : List (GpuSubmission σ) :=
  (if st.sphereInstances.isEmpty then []
   else [GpuSubmission.upload PrimKind.sphere st.sphereInstances]) ++
  (if st.boxInstances.isEmpty then []
   else [GpuSubmission.upload PrimKind.box st.boxInstances]) ++
  (if st.cylinderInstances.isEmpty then []
   else [GpuSubmission.upload PrimKind.cylinder st.cylinderInstances]) ++
  (if st.capsuleCapTopInstances.isEmpty then []
   else [GpuSubmission.upload PrimKind.capsuleCapTop st.capsuleCapTopInstances]) ++
  (if st.capsuleCapBottomInstances.isEmpty then []
   else [GpuSubmission.upload PrimKind.capsuleCapBottom st.capsuleCapBottomInstances]) ++
  (if st.capsuleCylinderInstances.isEmpty then []
   else [GpuSubmission.upload PrimKind.capsuleCylinder st.capsuleCylinderInstances])

/-- One draw block of `renderFrame`: the main pass (lines 1422-1487) or,
with `shadowPass = true`, the shadow pass (lines 1526-1590).  Each non-empty
list is drawn by exactly one `glDrawElementsInstanced` whose instance count is
the list's size. -/
def drawPass {σ : Type} (shadowPass : Bool) (st : InstanceLists σ) :
    List (GpuSubmission σ) :=
  (if st.sphereInstances.isEmpty then []
   else [GpuSubmission.drawInstanced shadowPass PrimKind.sphere
          st.sphereInstances.length]) ++
  (if st.boxInstances.isEmpty then []
   else [GpuSubmission.drawInstanced shadowPass PrimKind.box
          st.boxInstances.length]) ++
  (if st.cylinderInstances.isEmpty then []
   else [GpuSubmission.drawInstanced shadowPass PrimKind.cylinder
          st.cylinderInstances.length]) ++
  (if st.capsuleCapTopInstances.isEmpty then []
   else [GpuSubmission.drawInstanced shadowPass PrimKind.capsuleCapTop
          st.capsuleCapTopInstances.length]) ++
  (if st.capsuleCapBottomInstances.isEmpty then []
   else [GpuSubmission.drawInstanced shadowPass PrimKind.capsuleCapBottom
          st.capsuleCapBottomInstances.length]) ++
  (if st.capsuleCylinderInstances.isEmpty then []
   else [GpuSubmission.drawInstanced shadowPass PrimKind.capsuleCylinder
          st.capsuleCylinderInstances.length])

/-- The post-callback tail of `DrawstuffApp::renderFrame`
(src/src/drawstuff_core.cpp lines 1374-1605): upload every non-empty list,
draw the main pass, draw the shadow pass when `use_shadows` is set, then clear
all six lists (lines 1596-1602). -/
def renderFrameFlush {σ : Type} (useShadows : Bool) (st : InstanceLists σ) :
    List (GpuSubmission σ) × InstanceLists σ :=
  (uploadPass st ++ drawPass false st ++
     (if useShadows then drawPass true st else []),
   ⟨[], [], [], [], [], []⟩)

/-- Recognizer for an upload of the given kind. -/
def isUploadFor {σ : Type} (k : PrimKind) : GpuSubmission σ → Bool
  | GpuSubmission.upload k1 _ => decide (k1 = k)
  | _ => false

/-- Recognizer for an instanced draw of the given kind in the given pass. -/
def isDrawFor {σ : Type} (shadowPass : Bool) (k : PrimKind) :
    GpuSubmission σ → Bool
  | GpuSubmission.drawInstanced sp k1 _ =>
      decide (sp = shadowPass) && decide (k1 = k)
  | _ => false

-- ===========================================================================
-- Icosphere builder and its edge-point weld table (claims C1, C2, C9)
-- src/src/mesh_utils.cpp lines 18-154, src/src/primitive_meshes.cpp
-- lines 135-249
-- ===========================================================================

/-- `ICX` (src/src/mesh_utils.cpp line 18), as the exact value of the decimal
literal. -/
def ICX : ℚ := 0.525731112119133606

/-- `ICZ` (src/src/mesh_utils.cpp line 19). -/
def ICZ : ℚ := 0.850650808352039932

/-- `gSphereIcosaVerts` (src/src/mesh_utils.cpp lines 21-33). -/
def gSphereIcosaVerts : List (Vec3 ℚ) :=
  [⟨-ICX, 0, ICZ⟩, ⟨ICX, 0, ICZ⟩, ⟨-ICX, 0, -ICZ⟩, ⟨ICX, 0, -ICZ⟩,
   ⟨0, ICZ, ICX⟩, ⟨0, ICZ, -ICX⟩, ⟨0, -ICZ, ICX⟩, ⟨0, -ICZ, -ICX⟩,
   ⟨ICZ, ICX, 0⟩, ⟨-ICZ, ICX, 0⟩, ⟨ICZ, -ICX, 0⟩, ⟨-ICZ, -ICX, 0⟩]

/-- `gSphereIcosaFaces` (src/src/mesh_utils.cpp lines 35-56), each row
`(faces[i][0], faces[i][1], faces[i][2])`. -/
def gSphereIcosaFaces : List (ℕ × ℕ × ℕ) :=
  [(0, 4, 1), (0, 9, 4), (9, 5, 4), (4, 5, 8), (4, 8, 1),
   (8, 10, 1), (8, 3, 10), (5, 3, 8), (5, 2, 3), (2, 7, 3),
   (7, 10, 3), (7, 6, 10), (7, 11, 6), (11, 0, 6), (0, 1, 6),
   (6, 1, 10), (9, 0, 11), (9, 11, 2), (9, 2, 5), (7, 2, 11)]

/-- `struct EdgeKey` (src/src/mesh_utils.hpp lines 19-23). -/
structure EdgeKey where
  a : ℕ
  b : ℕ
  deriving DecidableEq, Repr

/-- `EdgePointTable` (src/src/mesh_utils.hpp line 33), an `unordered_map`
embedded as an association list (the source only inserts fresh keys). -/
abbrev EdgePointTable : Type := List (EdgeKey × List ℕ)

/-- Key lookup in the edge-point table (`edgePoints.find(key)`). -/
def lookupEdge : EdgePointTable → EdgeKey → Option (List ℕ)
  | [], _ => none
  | (k1, v) :: rest, k => if k1 = k then some v else lookupEdge rest k

/-- The mutable state threaded through the icosphere builder: the growing
vertex-position vector `pos`, the shared edge-point table `edgePoints`, and
the per-face interior-point log `faceInterior`
(src/src/primitive_meshes.cpp lines 144-162). -/
structure SphereBuildState where
  pos : List (Vec3 ℚ)
  edgePoints : EdgePointTable
  faceInterior : List ℕ

/-- `getOrBuildEdgePoints` (src/src/mesh_utils.cpp lines 61-90): canonicalize
the key as `(min a b, max a b)`; on a hit return the cached chain unchanged;
on a miss build the chain in canonical (`lo → hi`) order — `idx[0] = lo`,
`idx[K] = hi` (the `K` entry is written second, so for `K = 0` it wins), and
`K - 1` interior entries that are freshly appended normalized interpolations
`normalize((1 - t/K) * pos[lo] + (t/K) * pos[hi])` — and cache it. -/
def getOrBuildEdgePoints (a b : ℕ) (K : ℕ) (st : SphereBuildState) :
    List ℕ × SphereBuildState :=
  let key : EdgeKey := ⟨min a b, max a b⟩
  match lookupEdge st.edgePoints key with
  | some chain => (chain, st)
  | none =>
      let lo := key.a
      let hi := key.b
      let idx := (List.range (K + 1)).map (fun t =>
        if t = K then hi
        else if t = 0 then lo
        else st.pos.length + (t - 1))
      let newPts := (List.range (K - 1)).map (fun t1 =>
        let t : ℕ := t1 + 1
        let s : ℚ := (t : ℚ) / (K : ℚ)
        vnormalize qsqrt
          (Vec3.smul (1 - s) (st.pos.getD lo Vec3.zero) +
           Vec3.smul s (st.pos.getD hi Vec3.zero)))
      (idx,
       { st with
         pos := st.pos ++ newPts,
         edgePoints := st.edgePoints ++ [(key, idx)] })

/-- `getFaceLatticeIndex` (src/src/mesh_utils.cpp lines 95-154): resolve the
lattice point `(i, j)` of face `(A, B, C)` — a corner directly, an edge point
through the weld table (read in the requesting direction via
`t = forward ? i : K - i` with `forward = (A == min A B)`, i.e. `A ≤ B`), and
an interior point as a freshly appended normalized barycentric blend. -/
def getFaceLatticeIndex (A B C : ℕ) (i j K : ℕ) (st : SphereBuildState) :
    ℕ × SphereBuildState :=
  if i = 0 ∧ j = 0 then (A, st)
  else if i = K ∧ j = 0 then (B, st)
  else if i = 0 ∧ j = K then (C, st)
  else if j = 0 then
    let (e, st1) := getOrBuildEdgePoints A B K st
    let t := if A ≤ B then i else K - i
    (e.getD t 0, st1)
  else if i = 0 then
    let (e, st1) := getOrBuildEdgePoints A C K st
    let t := if A ≤ C then j else K - j
    (e.getD t 0, st1)
  else if i + j = K then
    let (e, st1) := getOrBuildEdgePoints B C K st
    let tFromB := K - i
    let t := if B ≤ C then tFromB else K - tFromB
    (e.getD t 0, st1)
  else
    let a : ℚ := ((K : ℚ) - i - j) / (K : ℚ)
    let b : ℚ := (i : ℚ) / (K : ℚ)
    let c : ℚ := (j : ℚ) / (K : ℚ)
    let p := vnormalize qsqrt
      (Vec3.smul a (st.pos.getD A Vec3.zero) +
       Vec3.smul b (st.pos.getD B Vec3.zero) +
       Vec3.smul c (st.pos.getD C Vec3.zero))
    let idx := st.pos.length
    (idx,
     { st with
       pos := st.pos ++ [p],
       faceInterior := st.faceInterior ++ [idx] })

/-- State-threading map over a list (the nested index loops of the source). -/
def mapState {σ β γ : Type} (f : β → σ → γ × σ) : List β → σ → List γ × σ
  | [], st => ([], st)
  | x :: xs, st =>
      let (y, st1) := f x st
      let (ys, st2) := mapState f xs st1
      (y :: ys, st2)

/-- The per-face lattice grid `grid[i][j]`
(src/src/primitive_meshes.cpp lines 171-182): `i : 0..K`, `j : 0..K-i`. -/
def buildFaceGrid (A B C : ℕ) (K : ℕ) (st : SphereBuildState) :
    List (List ℕ) × SphereBuildState :=
  mapState
    (fun i st1 =>
      mapState (fun j st2 => getFaceLatticeIndex A B C i j K st2)
        (List.range (K - i + 1)) st1)
    (List.range (K + 1)) st

/-- The triangulation loop of one face
(src/src/primitive_meshes.cpp lines 184-208): each cell `(i, j)` with
`i < K`, `j < K - i` emits `(v0, v1, v2)` and, when `j < K - i - 1`, also
`(v1, v3, v2)`. -/
def triangulateFace (grid : List (List ℕ)) (K : ℕ) : List ℕ :=
  (List.range K).flatMap (fun i =>
    (List.range (K - i)).flatMap (fun j =>
      let v0 := (grid.getD i []).getD j 0
      let v1 := (grid.getD (i + 1) []).getD j 0
      let v2 := (grid.getD i []).getD (j + 1) 0
      [v0, v1, v2] ++
        (if j < K - i - 1 then
          let v3 := (grid.getD (i + 1) []).getD (j + 1) 0
          [v1, v3, v2]
        else [])))

/-- The icosphere builder core of `DrawstuffApp::initSphereMeshForQuality`
(src/src/primitive_meshes.cpp lines 143-218): start from the 12 normalized
icosahedron vertices, then for each of the 20 faces take
`A = faces[fi][2]`, `B = faces[fi][1]`, `C = faces[fi][0]`, build the lattice
grid, and append the face's triangulation to the index list. -/
def buildIcosphere (K : ℕ) : SphereBuildState × List ℕ :=
  let st0 : SphereBuildState :=
    ⟨gSphereIcosaVerts.map (vnormalize qsqrt), [], []⟩
  gSphereIcosaFaces.foldl
    (fun acc face =>
      let A := face.2.2
      let B := face.2.1
      let C := face.1
      let (grid, st1) := buildFaceGrid A B C K acc.1
      (st1, acc.2 ++ triangulateFace grid K))
    (st0, [])

/-- `DrawstuffApp::initSphereMeshForQuality` entry
(src/src/primitive_meshes.cpp lines 135-141): `K = quality + 1`; `K < 1` is a
fatal `internalError` (process abort), embedded as `Except.error`.  The
resulting mesh is the vertex-position list (each with `normal = pos`,
line 217) and the index list. -/
def initSphereMeshForQuality (quality : ℤ) :
    Except String (List (Vec3 ℚ) × List ℕ) :=
  let K := quality + 1
  if K < 1 then Except.error "initSphereMeshForQuality: invalid level"
  else
    let r := buildIcosphere K.toNat
    Except.ok (r.1.pos, r.2)

/-- The edge chain as the requesting face reads it
(src/src/mesh_utils.cpp lines 110-119): entry `i` of the `a → b` reading of a
cached chain `e` is `e[i]` when `a ≤ b` (the canonical direction) and
`e[K - i]` otherwise. -/
def readEdgeChain (a b : ℕ) (K : ℕ) (e : List ℕ) : List ℕ :=
  (List.range (K + 1)).map (fun i => e.getD (if a ≤ b then i else K - i) 0)

-- ===========================================================================
-- Capsule builder: welding, cubed-sphere caps, equator ring
-- (claims C5, C6, C9, C10) — src/src/primitive_meshes.cpp lines 663-1123
-- ===========================================================================

/-- A position+normal vertex record (`VertexPN`). -/
structure VertexPN (α : Type) where
  pos : Vec3 α
  normal : Vec3 α
  deriving DecidableEq, Repr

/-- `struct VKey` (src/src/primitive_meshes.cpp lines 666-674): the quantized
six-tuple used as the weld key. -/
structure VKey where
  px : ℤ
  py : ℤ
  pz : ℤ
  nx : ℤ
  ny : ℤ
  nz : ℤ
  deriving DecidableEq, Repr

/-- `qf` (src/src/primitive_meshes.cpp lines 702-705): quantize a coordinate
by rounding `x * scale` to the nearest integer (`std::lrint`). -/
def qf {α : Type} [LinearOrderedField α] [FloorRing α] (x : α) (scale : α) :
    ℤ :=
  round (x * scale)

/-- The default quantization scale `1e6f` of `addVertexWelded`. -/
def weldQuant : ℚ := 1000000

/-- Key lookup in the weld map (`map.find(key)`); the `unordered_map` is
embedded as an association list, as only fresh keys are ever inserted. -/
def lookupVKey : List (VKey × ℕ) → VKey → Option ℕ
  | [], _ => none
  | (k1, v) :: rest, k => if k1 = k then some v else lookupVKey rest k

/-- `addVertexWelded` (src/src/primitive_meshes.cpp lines 707-728): quantize
position and normal with the default scales, return the cached index on a
hit, otherwise append a new vertex (with normalized normal) and record it. -/
def addVertexWelded {α : Type} [LinearOrderedField α] [FloorRing α]
    (s : α → α) (outVerts : List (VertexPN α)) (wmap : List (VKey × ℕ))
    (pos nrm : Vec3 α) : ℕ × List (VertexPN α) × List (VKey × ℕ) :=
  let key : VKey :=
    ⟨qf pos.x ((weldQuant : ℚ) : α), qf pos.y ((weldQuant : ℚ) : α),
     qf pos.z ((weldQuant : ℚ) : α), qf nrm.x ((weldQuant : ℚ) : α),
     qf nrm.y ((weldQuant : ℚ) : α), qf nrm.z ((weldQuant : ℚ) : α)⟩
  match lookupVKey wmap key with
  | some idx => (idx, outVerts, wmap)
  | none =>
      let idx := outVerts.length
      (idx, outVerts ++ [⟨pos, vnormalize s nrm⟩], wmap ++ [(key, idx)])

/-- `enum class CubeFace` (src/src/primitive_meshes.cpp lines 731-739). -/
inductive CubeFace where
  | PX
  | NX
  | PY
  | NY
  | PZ
  | NZ
  deriving DecidableEq, Repr

/-- `cubeToDir` (src/src/primitive_meshes.cpp lines 742-760). -/
def cubeToDir {α : Type} [Field α] [Neg α] : CubeFace → α → α → Vec3 α
  | CubeFace.PX, u, v => ⟨1, v, -u⟩
  | CubeFace.NX, u, v => ⟨-1, v, u⟩
  | CubeFace.PY, u, v => ⟨u, 1, -v⟩
  | CubeFace.NY, u, v => ⟨u, -1, v⟩
  | CubeFace.PZ, u, v => ⟨u, v, 1⟩
  | CubeFace.NZ, u, v => ⟨-u, v, -1⟩

/-- The fixed face iteration order of `buildHemisphereCapCubedSphere`
(src/src/primitive_meshes.cpp lines 897-898). -/
def cubeFaces : List CubeFace :=
  [CubeFace.PX, CubeFace.NX, CubeFace.PY, CubeFace.NY, CubeFace.PZ,
   CubeFace.NZ]

/-- `signedPlaneZ` (src/src/primitive_meshes.cpp lines 765-770): the signed
distance used for the half-space test — `z` for the top cap, `-z` for the
bottom cap. -/
def signedPlaneZ {α : Type} [Neg α] (p : Vec3 α) (top : Bool) : α :=
  if top then p.z else -p.z

/-- `snapToEquator` (src/src/primitive_meshes.cpp lines 772-785): zero the
axial component, and renormalize the remaining two components to the equator
radius; a degenerate in-plane length below `1e-20` falls back to `(r, 0, 0)`. -/
def snapToEquator {α : Type} [LinearOrderedField α] (s : α → α)
    (pLocal : Vec3 α) (r : α) : Vec3 α :=
  let d : Vec3 α := ⟨pLocal.x, pLocal.y, 0⟩
  let len := s (d.x * d.x + d.y * d.y)
  if len < (((1 : ℚ) / 100000000000000000000 : ℚ) : α) then ⟨r, 0, 0⟩
  else ⟨d.x / len * r, d.y / len * r, 0⟩

/-- The `clipOnce` lambda of `clipTriToHemisphere`
(src/src/primitive_meshes.cpp lines 809-857): one Sutherland-Hodgman pass of
the polygon (carried with its plane values) against `value ≥ 0`; each edge
emits the surviving endpoint and/or the snapped intersection point
`P + t * (Q - P)` with `t = VP / (VP - VQ)`. -/
def clipOnce {α : Type} [LinearOrderedField α] (s : α → α) (r : α)
    (inPV : List (Vec3 α × α)) : List (Vec3 α × α) :=
  let m := inPV.length
  (List.range m).flatMap (fun i =>
    let j := (i + 1) % m
    let P := (inPV.getD i (Vec3.zero, 0)).1
    let Q := (inPV.getD j (Vec3.zero, 0)).1
    let VP := (inPV.getD i (Vec3.zero, 0)).2
    let VQ := (inPV.getD j (Vec3.zero, 0)).2
    if 0 ≤ VP then
      if 0 ≤ VQ then [(Q, VQ)]
      else
        let t := VP / (VP - VQ)
        let I := snapToEquator s (P + Vec3.smul t (Q - P)) r
        [(I, (0 : α))]
    else
      if 0 ≤ VQ then
        let t := VP / (VP - VQ)
        let I := snapToEquator s (P + Vec3.smul t (Q - P)) r
        [(I, (0 : α)), (Q, VQ)]
      else [])

/-- `clipTriToHemisphere` (src/src/primitive_meshes.cpp lines 789-865): clip
the triangle `(aL, bL, cL)` against the half-space of `signedPlaneZ · ≥ 0`,
returning the resulting polygon. -/
def clipTriToHemisphere {α : Type} [LinearOrderedField α] (s : α → α)
    (aL bL cL : Vec3 α) (top : Bool) (r : α) : List (Vec3 α) :=
  (clipOnce s r
    [(aL, signedPlaneZ aL top), (bL, signedPlaneZ bL top),
     (cL, signedPlaneZ cL top)]).map (fun pv => pv.1)

/-- `triangulatePolyFan` (src/src/primitive_meshes.cpp lines 868-878):
fan-triangulate a polygon from its first vertex. -/
def triangulatePolyFan {α : Type} [OfNat α 0] (poly : List (Vec3 α)) :
    List (Vec3 α × Vec3 α × Vec3 α) :=
  if poly.length < 3 then []
  else
    (List.range (poly.length - 2)).map (fun i =>
      (poly.getD 0 Vec3.zero, poly.getD (i + 1) Vec3.zero,
       poly.getD (i + 2) Vec3.zero))

/-- The accumulating output of a cap build: vertex list, weld map, index
list. -/
structure WeldState (α : Type) where
  verts : List (VertexPN α)
  wmap : List (VKey × ℕ)
  indices : List ℕ

/-- The `emitTriLocal` lambda of `buildHemisphereCapCubedSphere`
(src/src/primitive_meshes.cpp lines 902-917): weld the three vertices at
`center + local` with normals `normalize(local)` and push their indices. -/
def emitTriLocal {α : Type} [LinearOrderedField α] [FloorRing α] (s : α → α)
    (center : Vec3 α) (acc : WeldState α)
    (tri : Vec3 α × Vec3 α × Vec3 α) : WeldState α :=
  let na := vnormalize s tri.1
  let nb := vnormalize s tri.2.1
  let nc := vnormalize s tri.2.2
  let r1 := addVertexWelded s acc.verts acc.wmap (center + tri.1) na
  let r2 := addVertexWelded s r1.2.1 r1.2.2 (center + tri.2.1) nb
  let r3 := addVertexWelded s r2.2.1 r2.2.2 (center + tri.2.2) nc
  ⟨r3.2.1, r3.2.2, acc.indices ++ [r1.1, r2.1, r3.1]⟩

/-- The candidate-triangle generation of `buildHemisphereCapCubedSphere`
(src/src/primitive_meshes.cpp lines 919-971): for each cube face and each
`div × div` cell, project the four corners onto the sphere of radius `r`,
form the two cell triangles, clip each against the hemisphere, and
fan-triangulate the clipped polygons. -/
def capClippedTris {α : Type} [LinearOrderedField α] (s : α → α) (top : Bool)
    (div : ℕ) (r : α) : List (Vec3 α × Vec3 α × Vec3 α) :=
  cubeFaces.flatMap (fun f =>
    (List.range div).flatMap (fun y =>
      let v0 : α := -1 + 2 * (y : α) / (div : α)
      let v1 : α := -1 + 2 * ((y : α) + 1) / (div : α)
      (List.range div).flatMap (fun x =>
        let u0 : α := -1 + 2 * (x : α) / (div : α)
        let u1 : α := -1 + 2 * ((x : α) + 1) / (div : α)
        let p00 := Vec3.smul r (vnormalize s (cubeToDir f u0 v0))
        let p10 := Vec3.smul r (vnormalize s (cubeToDir f u1 v0))
        let p01 := Vec3.smul r (vnormalize s (cubeToDir f u0 v1))
        let p11 := Vec3.smul r (vnormalize s (cubeToDir f u1 v1))
        [(p00, p10, p11), (p00, p11, p01)].flatMap (fun t =>
          triangulatePolyFan
            (clipTriToHemisphere s t.1 t.2.1 t.2.2 top r)))))

/-- `buildHemisphereCapCubedSphere` (src/src/primitive_meshes.cpp
lines 882-972): generate, clip and fan the candidate triangles, then weld and
emit them around the cap center `(0, 0, ±l)`. -/
def buildHemisphereCapCubedSphere {α : Type} [LinearOrderedField α]
    [FloorRing α] (s : α → α) (top : Bool) (div : ℕ)
    (radius halfBodyLength : α) : List (VertexPN α) × List ℕ :=
  let center : Vec3 α :=
    if top then ⟨0, 0, halfBodyLength⟩ else ⟨0, 0, -halfBodyLength⟩
  let res := (capClippedTris s top div radius).foldl
    (emitTriLocal s center) ⟨[], [], []⟩
  (res.verts, res.indices)

/-- `buildCubedSphereEquatorRingXY` (src/src/primitive_meshes.cpp
lines 976-1012): trace the cube equator over the four side faces, projecting
each sample `(x, y, 0)` onto the unit circle. -/
def buildCubedSphereEquatorRingXY {α : Type} [Field α] (s : α → α)
    (div : ℕ) : List (α × α) :=
  let push := fun (x y : α) =>
    let p := vnormalize s (⟨x, y, 0⟩ : Vec3 α)
    (p.x, p.y)
  ((List.range div).map (fun i =>
    let u : α := -1 + 2 * ((i : α) / (div : α))
    push 1 u)) ++
  ((List.range div).map (fun i =>
    let u : α := 1 - 2 * ((i : α) / (div : α))
    push u 1)) ++
  ((List.range div).map (fun i =>
    let u : α := 1 - 2 * ((i : α) / (div : α))
    push (-1) u)) ++
  ((List.range div).map (fun i =>
    let u : α := -1 + 2 * ((i : α) / (div : α))
    push u (-1)))

/-- The loop state of the capsule body build
(src/src/primitive_meshes.cpp lines 1061-1091). -/
structure BodyState (α : Type) where
  verts : List (VertexPN α)
  indices : List ℕ
  prevTop : ℕ
  prevBottom : ℕ
  firstPair : Bool

/-- One iteration of the capsule-body loop
(src/src/primitive_meshes.cpp lines 1064-1091): read `ring[i % m]`, append
the top and bottom vertices of the sample (`addCylVertex`, which normalizes
the radial normal), and from the second sample on emit the two quad
triangles. -/
def buildCapsuleBodyStep {α : Type} [LinearOrderedField α] (s : α → α)
    (ring : List (α × α)) (r l : α) (acc : BodyState α) (i : ℕ) :
    BodyState α :=
  let m := ring.length
  let xy := ring.getD (i % m) (0, 0)
  let x := xy.1
  let y := xy.2
  let vTop := acc.verts.length
  let vBottom := acc.verts.length + 1
  let verts1 := acc.verts ++
    [⟨⟨x * r, y * r, l⟩, vnormalize s ⟨x, y, 0⟩⟩,
     ⟨⟨x * r, y * r, -l⟩, vnormalize s ⟨x, y, 0⟩⟩]
  if acc.firstPair then
    ⟨verts1, acc.indices, vTop, vBottom, false⟩
  else
    ⟨verts1,
     acc.indices ++
       [acc.prevTop, acc.prevBottom, vTop,
        acc.prevBottom, vBottom, vTop],
     vTop, vBottom, false⟩

/-- The cylinder-body part of `initUnitCapsulePartsForQuality`
(src/src/primitive_meshes.cpp lines 1056-1091): walk the closed equator ring
(`i = 0 .. m`), starting from an empty vertex and index list. -/
def buildCapsuleBody {α : Type} [LinearOrderedField α] (s : α → α)
    (div : ℕ) (r l : α) : List (VertexPN α) × List ℕ :=
  let ring := buildCubedSphereEquatorRingXY s div
  let m := ring.length
  let res := (List.range (m + 1)).foldl (buildCapsuleBodyStep s ring r l)
    ⟨[], [], 0, 0, true⟩
  (res.verts, res.indices)

/-- `initUnitCapsulePartsForQuality` (src/src/primitive_meshes.cpp
lines 1015-1123): `l = length * 0.5 = 1`, `r = radius = 1`,
`div = capsule_quality * 2 + 2`; build the cylinder body from the cubed-sphere
equator ring and the two hemisphere caps with the same `div`. -/
def initUnitCapsulePartsForQuality {α : Type} [LinearOrderedField α]
    [FloorRing α] (s : α → α) (quality : ℕ) :
    (List (VertexPN α) × List ℕ) × (List (VertexPN α) × List ℕ) ×
      (List (VertexPN α) × List ℕ) :=
  let l : α := 2 * ((1 : ℚ) / 2 : ℚ)
  let r : α := 1
  let div := quality * 2 + 2
  (buildCapsuleBody s div r l,
   buildHemisphereCapCubedSphere s true div r l,
   buildHemisphereCapCubedSphere s false div r l)

/-- The quality levels at which `DrawstuffApp::createPrimitiveMeshes` calls
the capsule builder (src/src/primitive_meshes.cpp lines 1238-1246). -/
def reachableCapsuleQualities : List ℕ := [1, 2, 3]

-- ===========================================================================
-- Crease-angle mesh rebuild (claim C7)
-- src/src/mesh_utils.cpp lines 222-411
-- ===========================================================================

/-- `struct MeshPN` (src/src/mesh_utils.hpp lines 14-17). -/
structure MeshPN where
  vertices : List (VertexPN ℚ)
  indices : List ℕ
  deriving DecidableEq, Repr

/-- Step 1 of `buildCreasedVertexPNFromVerticesAndIndices`
(src/src/mesh_utils.cpp lines 256-288): per-triangle unit face normals, with
the `(0, 1, 0)` fallback for out-of-range indices and degenerate cross
products. -/
def creasedFaceNormals (positions : List (Vec3 ℚ)) (indices : List ℕ) :
    List (Vec3 ℚ) :=
  let numVerts := positions.length
  let numTris := indices.length / 3
  (List.range numTris).map (fun t =>
    let i0 := indices.getD (3 * t) 0
    let i1 := indices.getD (3 * t + 1) 0
    let i2 := indices.getD (3 * t + 2) 0
    if numVerts ≤ i0 ∨ numVerts ≤ i1 ∨ numVerts ≤ i2 then
      (⟨0, 1, 0⟩ : Vec3 ℚ)
    else
      let p0 := positions.getD i0 Vec3.zero
      let p1 := positions.getD i1 Vec3.zero
      let p2 := positions.getD i2 Vec3.zero
      let N := Vec3.cross (p1 - p0) (p2 - p0)
      if 0 < N.quadrance then vnormalize qsqrt N else ⟨0, 1, 0⟩)

/-- Step 2 of `buildCreasedVertexPNFromVerticesAndIndices`
(src/src/mesh_utils.cpp lines 290-303): the `(triangle, corner)` references
adjoining a vertex, in triangle-then-corner order, skipping out-of-range
corner indices. -/
def creasedAdjacency (numVerts : ℕ) (indices : List ℕ) (v : ℕ) :
    List (ℕ × ℕ) :=
  let numTris := indices.length / 3
  (List.range numTris).flatMap (fun t =>
    (List.range 3).filterMap (fun c =>
      let vi := indices.getD (3 * t + c) 0
      if numVerts ≤ vi then none
      else if vi = v then some (t, c) else none))

/-- `struct Cluster` of src/src/mesh_utils.cpp lines 329-334. -/
structure Cluster where
  normalAccum : Vec3 ℚ
  repNormal : Vec3 ℚ
  members : List (ℕ × ℕ)
  deriving DecidableEq, Repr

/-- Step 4a of `buildCreasedVertexPNFromVerticesAndIndices`
(src/src/mesh_utils.cpp lines 336-379): greedy normal clustering of one
vertex's corners.  For each corner, find the cluster whose representative
normal has the strictly largest dot product with the corner's face normal
(`bestDot` starts at `-1`); start a new cluster when none qualifies or the
best dot is below `cosThreshold`, otherwise add to the best cluster and
refresh its representative normal from the accumulator. -/
def creasedClusters (faceNormals : List (Vec3 ℚ)) (cosThreshold : ℚ)
    (corners : List (ℕ × ℕ)) : List Cluster :=
  corners.foldl
    (fun clusters cr =>
      let nFace := faceNormals.getD cr.1 ⟨0, 1, 0⟩
      let best := clusters.enum.foldl
        (fun (b : Option ℕ × ℚ) ce =>
          let d := Vec3.dot nFace ce.2.repNormal
          if b.2 < d then (some ce.1, d) else b)
        (none, -1)
      match best.1 with
      | none => clusters ++ [⟨nFace, nFace, [cr]⟩]
      | some bi =>
          if best.2 < cosThreshold then clusters ++ [⟨nFace, nFace, [cr]⟩]
          else
            let c := clusters.getD bi ⟨Vec3.zero, Vec3.zero, []⟩
            let acc1 := c.normalAccum + nFace
            let rep1 :=
              if 0 < acc1.quadrance then vnormalize qsqrt acc1
              else c.repNormal
            clusters.set bi ⟨acc1, rep1, c.members ++ [cr]⟩)
    []

/-- `buildCreasedVertexPNFromVerticesAndIndices`
(src/src/mesh_utils.cpp lines 229-411).  The source takes
`creaseAngleDegrees` and compares cluster dots against
`cosThreshold = cos(radians(creaseAngleDegrees))` (lines 306-307); the
embedding takes `cosThreshold` directly, since the claims instantiate the two
angles whose cosine is exact: `cos 0° = 1` and `cos 180° = -1`.
For every vertex in index order, cluster its adjoining corners by normal,
emit one output vertex per cluster (position unchanged, normal the normalized
accumulator, `(0, 1, 0)` if degenerate), and rewrite the member corners'
entries of the output index list (pre-sized to the input length with zeroed
entries, as `resize` does). -/
def buildCreasedVertexPNFromVerticesAndIndices (vertices : List ℚ)
    (indices : List ℕ) (cosThreshold : ℚ) : MeshPN :=
  let numVerts := vertices.length / 3
  let numIndices := indices.length
  let numTris := numIndices / 3
  if numVerts = 0 ∨ numTris = 0 then ⟨[], []⟩
  else
    let positions := (List.range numVerts).map (fun i =>
      (⟨vertices.getD (3 * i) 0, vertices.getD (3 * i + 1) 0,
        vertices.getD (3 * i + 2) 0⟩ : Vec3 ℚ))
    let faceNormals := creasedFaceNormals positions indices
    let res := (List.range numVerts).foldl
      (fun (acc : List (VertexPN ℚ) × List ℕ) v =>
        let corners := creasedAdjacency numVerts indices v
        if corners.isEmpty then acc
        else
          (creasedClusters faceNormals cosThreshold corners).foldl
            (fun (acc1 : List (VertexPN ℚ) × List ℕ) c =>
              let newNormal :=
                if 0 < c.normalAccum.quadrance then
                  vnormalize qsqrt c.normalAccum
                else (⟨0, 1, 0⟩ : Vec3 ℚ)
              let newIndex := acc1.1.length
              (acc1.1 ++ [⟨positions.getD v Vec3.zero, newNormal⟩],
               c.members.foldl
                 (fun oi cr => oi.set (3 * cr.1 + cr.2) newIndex) acc1.2))
            acc)
      ([], List.replicate numIndices 0)
    ⟨res.1, res.2⟩

/-- An axis-aligned cube with 8 vertices at `(±1, ±1, ±1)` (flat positions
`x, y, z, …`), the registered-mesh test input of the claim. -/
def cubeVertices : List ℚ :=
  [-1, -1, -1,   1, -1, -1,   1, 1, -1,   -1, 1, -1,
   -1, -1,  1,   1, -1,  1,   1, 1,  1,   -1, 1,  1]

/-- The 12 triangles of the cube (two per face, consistent outward
winding). -/
def cubeIndices : List ℕ :=
  [0, 3, 2,  0, 2, 1,
   4, 5, 6,  4, 6, 7,
   0, 1, 5,  0, 5, 4,
   1, 2, 6,  1, 6, 5,
   2, 3, 7,  2, 7, 6,
   3, 0, 4,  3, 4, 7]

/-- The cube's vertex positions as `Vec3` values, in index order. -/
def cubePositions : List (Vec3 ℚ) :=
  (List.range 8).map (fun i =>
    (⟨cubeVertices.getD (3 * i) 0, cubeVertices.getD (3 * i + 1) 0,
      cubeVertices.getD (3 * i + 2) 0⟩ : Vec3 ℚ))

/-- The sum, over the cube triangles adjoining a position `p`, of the
triangle's unit face normal.  All twelve cube triangles have the same area,
so this sum points in the direction of the area-weighted average of the
adjoining face normals. -/
def cubeAdjoiningUnitNormalSum (p : Vec3 ℚ) : Vec3 ℚ :=
  let normals := creasedFaceNormals cubePositions cubeIndices
  ((List.range 12).filter (fun t =>
      (List.range 3).any (fun c =>
        cubePositions.getD (cubeIndices.getD (3 * t + c) 0) Vec3.zero = p)))
    |>.foldl (fun acc t => acc + normals.getD t Vec3.zero) Vec3.zero

-- ===========================================================================
-- Invariant predicates used by the index-validity theorems (claim C9)
-- ===========================================================================

/-- Every index stored in an edge-point chain refers to an existing vertex. -/
def EdgeTableValid (st : SphereBuildState) : Prop :=
  ∀ kv ∈ st.edgePoints, ∀ i ∈ kv.2, i < st.pos.length

/-- The icosphere build invariant: the 12 icosahedron vertices are present
and every cached edge-chain index is in range. -/
def SInv (st : SphereBuildState) : Prop :=
  12 ≤ st.pos.length ∧ EdgeTableValid st

/-- Every index stored in the weld map refers to an existing vertex. -/
def WeldMapValid (wmap : List (VKey × ℕ)) (n : ℕ) : Prop :=
  ∀ kv ∈ wmap, kv.2 < n

/-- The cap-build invariant: every emitted index and every weld-map index is
in range, and indices come in whole triangles. -/
def WeldInv {α : Type} (ws : WeldState α) : Prop :=
  (∀ i ∈ ws.indices, i < ws.verts.length) ∧
  WeldMapValid ws.wmap ws.verts.length ∧
  ws.indices.length % 3 = 0

/-- The body-build invariant: emitted indices are in range, come in whole
triangles, and the previous rim pair is in range once it exists. -/
def BodyInv {α : Type} (bs : BodyState α) : Prop :=
  (∀ i ∈ bs.indices, i < bs.verts.length) ∧
  bs.indices.length % 3 = 0 ∧
  (bs.firstPair = false → bs.prevTop < bs.verts.length ∧
    bs.prevBottom < bs.verts.length)

-- ===========================================================================
-- Theorems
-- ===========================================================================

theorem aux_length_flatMap {β γ : Type} (l : List β) (f : β → List γ) :
    (l.flatMap f).length = (l.map (fun b => (f b).length)).sum := by
  induction l with
  | nil => rfl
  | cons a t ih => simp [List.flatMap_cons, ih]

theorem aux_row_sum (n : ℕ) :
    ((List.range n).map (fun j => if j < n - 1 then 6 else 3)).sum =
      3 * n + 3 * (n - 1) := by
  cases n with
  | zero => rfl
  | succ m =>
      rw [List.range_succ, List.map_append, List.sum_append]
      have h1 : (List.range m).map (fun j => if j < m + 1 - 1 then 6 else 3) =
          (List.range m).map (fun _ => 6) := by
        apply List.map_congr_left
        intro j hj
        simp [List.mem_range.mp hj]
      rw [h1]
      simp [List.map_const, List.sum_replicate]
      omega

theorem aux_face_sum (K : ℕ) :
    ((List.range K).map (fun i => 3 * (K - i) + 3 * (K - i - 1))).sum =
      3 * K ^ 2 := by
  induction K with
  | zero => rfl
  | succ m ih =>
      rw [List.range_succ_eq_map, List.map_cons, List.map_map, List.sum_cons]
      have h2 : (List.range m).map
            ((fun i => 3 * (m + 1 - i) + 3 * (m + 1 - i - 1)) ∘ Nat.succ) =
          (List.range m).map (fun i => 3 * (m - i) + 3 * (m - i - 1)) := by
        apply List.map_congr_left
        intro i hi
        simp only [Function.comp]
        omega
      rw [h2, ih]
      ring_nf
      omega

theorem aux_triangulateFace_length (grid : List (List ℕ)) (K : ℕ) :
    (triangulateFace grid K).length = 3 * K ^ 2 := by
  rw [triangulateFace, aux_length_flatMap]
  have houter : ∀ i : ℕ, i ∈ List.range K →
      ((List.range (K - i)).flatMap (fun j =>
        [(grid.getD i []).getD j 0, (grid.getD (i + 1) []).getD j 0,
         (grid.getD i []).getD (j + 1) 0] ++
          (if j < K - i - 1 then
            [(grid.getD (i + 1) []).getD j 0,
             (grid.getD (i + 1) []).getD (j + 1) 0,
             (grid.getD i []).getD (j + 1) 0]
          else []))).length = 3 * (K - i) + 3 * (K - i - 1) := by
    intro i hi
    rw [aux_length_flatMap]
    have hrow : ∀ j : ℕ, j ∈ List.range (K - i) →
        ([(grid.getD i []).getD j 0, (grid.getD (i + 1) []).getD j 0,
          (grid.getD i []).getD (j + 1) 0] ++
           (if j < K - i - 1 then
             [(grid.getD (i + 1) []).getD j 0,
              (grid.getD (i + 1) []).getD (j + 1) 0,
              (grid.getD i []).getD (j + 1) 0]
           else [])).length = if j < K - i - 1 then 6 else 3 := by
      intro j hj
      by_cases h : j < K - i - 1 <;> simp [h]
    rw [List.map_congr_left hrow, aux_row_sum]
  rw [List.map_congr_left houter, aux_face_sum]

theorem aux_buildIcosphere_length (K : ℕ) :
    (buildIcosphere K).2.length = 60 * K ^ 2 := by
  have hfold : ∀ (faces : List (ℕ × ℕ × ℕ)) (acc : SphereBuildState × List ℕ),
      (faces.foldl
        (fun acc face =>
          let A := face.2.2
          let B := face.2.1
          let C := face.1
          let (grid, st1) := buildFaceGrid A B C K acc.1
          (st1, acc.2 ++ triangulateFace grid K))
        acc).2.length = acc.2.length + faces.length * (3 * K ^ 2) := by
    intro faces
    induction faces with
    | nil => intro acc; simp
    | cons f t ih =>
        intro acc
        rw [List.foldl_cons, ih]
        simp [aux_triangulateFace_length]
        ring
  simp only [buildIcosphere]
  rw [hfold]
  simp [gSphereIcosaFaces]
  ring

/-- C2: for every subdivision factor `K` the icosphere builder emits exactly
`20 K ^ 2` triangles, i.e. exactly `60 K ^ 2` indices (in particular for all
`K ≥ 1`); and through the `quality ↦ K = quality + 1` mapping of
`initSphereMeshForQuality`, the vertex count at `quality = 1` is strictly
smaller than the vertex count at `quality = 3`. -/
theorem c2_icosphere_counts (K : ℕ) :
    (buildIcosphere K).2.length = 60 * K ^ 2 ∧
    (buildIcosphere K).2.length / 3 = 20 * K ^ 2 ∧
    initSphereMeshForQuality 1 =
      Except.ok ((buildIcosphere 2).1.pos, (buildIcosphere 2).2) ∧
    initSphereMeshForQuality 3 =
      Except.ok ((buildIcosphere 4).1.pos, (buildIcosphere 4).2) ∧
    (buildIcosphere 2).1.pos.length < (buildIcosphere 4).1.pos.length := by
  have h2 : Int.toNat 2 = 2 := by decide
  have h4 : Int.toNat 4 = 4 := by decide
  refine ⟨aux_buildIcosphere_length K, ?_,
    by norm_num [initSphereMeshForQuality, h2],
    by norm_num [initSphereMeshForQuality, h4], by decide⟩
  rw [aux_buildIcosphere_length K]
  omega

/-- C3: after the draw callback, `renderFrame` uploads each non-empty
per-kind instance list in exactly one bulk transfer, draws it with exactly
one instanced draw whose instance count is the number of recorded instances,
mirrors the draws in the shadow pass exactly when shadows are enabled, and
leaves every one of the six lists empty for the next frame. -/
theorem c3_render_flush_batches {σ : Type} (useShadows : Bool)
    (st : InstanceLists σ) (k : PrimKind) :
    ((renderFrameFlush useShadows st).2.get k = []) ∧
    ((renderFrameFlush useShadows st).1.filter (isUploadFor k) =
       if (st.get k).isEmpty then [] else [GpuSubmission.upload k (st.get k)]) ∧
    ((renderFrameFlush useShadows st).1.filter (isDrawFor false k) =
       if (st.get k).isEmpty then []
       else [GpuSubmission.drawInstanced false k (st.get k).length]) ∧
    ((renderFrameFlush useShadows st).1.filter (isDrawFor true k) =
       if useShadows && !(st.get k).isEmpty then
         [GpuSubmission.drawInstanced true k (st.get k).length]
       else []) := by
  cases k <;> cases useShadows <;>
    refine ⟨rfl, ?_, ?_, ?_⟩ <;>
    simp [renderFrameFlush, uploadPass, drawPass, InstanceLists.get,
      isUploadFor, isDrawFor, List.filter_append, apply_ite (List.filter _),
      List.filter_cons, List.filter_nil] <;>
    split <;> simp_all [List.isEmpty_iff]

/-- C4: the shadow projection (spec-modelled matrix, the initialization code
being absent from the provided sources) maps any homogeneous world point
`(x, y, z, 1)` to `(x - LIGHTX * z, y - LIGHTY * z, 0, 1)` for the constant
light direction `(LIGHTX, LIGHTY, 1) = (1, 0.4, 1)`; every point with
`z = 0` is a fixed point; and the map's ground coordinates agree with the
`drawSphereShadow` center formula found in the sources. -/
theorem c4_shadow_projection (x y z : ℚ) :
    shadowProject.mulVec ⟨x, y, z, 1⟩ =
      ⟨x - LIGHTX * z, y - LIGHTY * z, 0, 1⟩ ∧
    shadowProject.mulVec ⟨x, y, 0, 1⟩ = ⟨x, y, 0, 1⟩ ∧
    (shadowProject.mulVec ⟨x, y, z, 1⟩).x = (drawSphereShadowCenter x y z).1 ∧
    (shadowProject.mulVec ⟨x, y, z, 1⟩).y = (drawSphereShadowCenter x y z).2 := by
  refine ⟨?_, ?_, ?_, ?_⟩ <;>
    (simp [Mat4.mulVec, shadowProject, drawSphereShadowCenter, LIGHTX,
       LIGHTY]
     try ring_nf
     try norm_num)

/-- C8: recording an instance or issuing a primitive draw while no frame is
being rendered (state not `SIM_STATE_DRAWING`) is fatal: the call reports the
usage error and terminates the process (`Except.error`), and the abstract
recording body never runs, so no instance is appended. -/
theorem c8_draw_outside_frame_fatal {σ : Type} (s : SimulationState)
    (rec : σ → σ) (st : σ) (h : s ≠ SimulationState.drawing) :
    dsDrawPrimitive s rec st =
      Except.error "drawing function called outside simulation loop" := by
  cases s <;> simp [dsDrawPrimitive, with_app, isInsideSimulationLoop] at h ⊢

/-- Witness for C8 at the concrete state `SIM_STATE_RUNNING` with a body that
would append to a list. -/
theorem c8_draw_outside_frame_fatal_witness :
    SimulationState.running ≠ SimulationState.drawing ∧
    dsDrawPrimitive SimulationState.running (fun l => l ++ [0]) ([] : List ℕ) =
      Except.error "drawing function called outside simulation loop" :=
  ⟨by decide,
   c8_draw_outside_frame_fatal SimulationState.running (fun l => l ++ [0]) []
     (by decide)⟩

/-- C10: for every capsule quality level `q` (in particular the reachable
levels 1, 2, 3 listed in `reachableCapsuleQualities`), the builder passes the
same subdivision factor `div = 2 * q + 2` to the equator-ring body builder
and to both hemisphere-cap builders, and that factor is always even, so the
undocumented even-`div` precondition holds on every reachable call. -/
theorem c10_capsule_div_even (q : ℕ) :
    (initUnitCapsulePartsForQuality (α := ℚ) qsqrt q).1 =
      buildCapsuleBody qsqrt (2 * q + 2) 1 1 ∧
    (initUnitCapsulePartsForQuality (α := ℚ) qsqrt q).2.1 =
      buildHemisphereCapCubedSphere qsqrt true (2 * q + 2) 1 1 ∧
    (initUnitCapsulePartsForQuality (α := ℚ) qsqrt q).2.2 =
      buildHemisphereCapCubedSphere qsqrt false (2 * q + 2) 1 1 ∧
    Even (2 * q + 2) ∧ reachableCapsuleQualities = [1, 2, 3] := by
  refine ⟨?_, ?_, ?_, ⟨q + 1, by ring⟩, rfl⟩ <;>
    simp [initUnitCapsulePartsForQuality] <;> norm_num [Nat.mul_comm]

theorem aux_lookup_append_self (t : EdgePointTable) (k : EdgeKey) (v : List ℕ)
    (h : lookupEdge t k = none) : lookupEdge (t ++ [(k, v)]) k = some v := by
  induction t with
  | nil => simp [lookupEdge]
  | cons p rest ih =>
      rw [lookupEdge] at h
      by_cases hk : p.1 = k
      · simp [hk] at h
      · rw [List.cons_append, lookupEdge]
        simp only [hk, if_false] at h ⊢
        exact ih h

theorem aux_lookup_mem (t : EdgePointTable) (k : EdgeKey) (v : List ℕ)
    (h : lookupEdge t k = some v) : (k, v) ∈ t := by
  induction t with
  | nil => simp [lookupEdge] at h
  | cons p rest ih =>
      cases p with
      | mk k2 v2 =>
          rw [lookupEdge] at h
          by_cases hk : k2 = k
          · rw [if_pos hk] at h
            injection h with h2
            rw [hk, h2]
            exact List.mem_cons_self _ _
          · rw [if_neg hk] at h
            exact List.mem_cons_of_mem _ (ih h)

theorem aux_read_forward (e : List ℕ) (K : ℕ) (h : e.length = K + 1) :
    (List.range (K + 1)).map (fun i => e.getD i 0) = e := by
  apply List.ext_getElem
  · simp [h]
  · intro i h1 h2
    simp only [List.getElem_map, List.getElem_range]
    exact List.getD_eq_getElem e 0 (by omega)

theorem aux_read_backward (e : List ℕ) (K : ℕ) (h : e.length = K + 1) :
    (List.range (K + 1)).map (fun i => e.getD (K - i) 0) = e.reverse := by
  apply List.ext_getElem
  · simp [h]
  · intro i h1 h2
    simp only [List.getElem_map, List.getElem_range, List.getElem_reverse]
    rw [List.getD_eq_getElem e 0 (by omega)]
    congr 1
    omega

theorem aux_getOrBuild_symm (a b K : ℕ) (st : SphereBuildState) :
    getOrBuildEdgePoints a b K st = getOrBuildEdgePoints b a K st := by
  have hmin : min b a = min a b := Nat.min_comm b a
  have hmax : max b a = max a b := Nat.max_comm b a
  simp only [getOrBuildEdgePoints, hmin, hmax]

theorem aux_getOrBuild_idem (a b K : ℕ) (st : SphereBuildState) :
    getOrBuildEdgePoints a b K (getOrBuildEdgePoints a b K st).2 =
      getOrBuildEdgePoints a b K st := by
  cases h : lookupEdge st.edgePoints ⟨min a b, max a b⟩ with
  | some chain => simp [getOrBuildEdgePoints, h]
  | none =>
      have h2 := aux_lookup_append_self st.edgePoints ⟨min a b, max a b⟩
        ((List.range (K + 1)).map (fun t =>
          if t = K then (⟨min a b, max a b⟩ : EdgeKey).b
          else if t = 0 then (⟨min a b, max a b⟩ : EdgeKey).a
          else st.pos.length + (t - 1))) h
      simp only [getOrBuildEdgePoints, h]
      simp only [h2]

theorem aux_getOrBuild_len (a b K : ℕ) (st : SphereBuildState)
    (hwf : ∀ kv ∈ st.edgePoints, kv.2.length = K + 1) :
    (getOrBuildEdgePoints a b K st).1.length = K + 1 := by
  cases h : lookupEdge st.edgePoints ⟨min a b, max a b⟩ with
  | some chain =>
      have := hwf _ (aux_lookup_mem _ _ _ h)
      simp only [getOrBuildEdgePoints, h]
      exact this
  | none => simp [getOrBuildEdgePoints, h]

/-- C1: the edge-point chains of the icosphere weld table are shared: for any
edge `{a, b}` (`a ≠ b`) and any build state whose cached chains have the
right length, (i) a request from either adjoining side returns the identical
chain and identical state regardless of direction; (ii) once a chain exists,
a repeated request — in particular the one from the second adjoining face —
returns the identical cached chain and creates no new vertices; (iii) the
chain has exactly `K + 1` entries, and the reading in the direction `b → a`
is exactly the reverse of the reading in the direction `a → b` (the
`t = forward ? i : K - i` indexing of `getFaceLatticeIndex`). -/
theorem c1_edge_chain_shared (a b K : ℕ) (st : SphereBuildState)
    (hab : a ≠ b)
    (hwf : ∀ kv ∈ st.edgePoints, kv.2.length = K + 1) :
    getOrBuildEdgePoints a b K st = getOrBuildEdgePoints b a K st ∧
    getOrBuildEdgePoints a b K (getOrBuildEdgePoints a b K st).2 =
      getOrBuildEdgePoints a b K st ∧
    getOrBuildEdgePoints b a K (getOrBuildEdgePoints a b K st).2 =
      getOrBuildEdgePoints a b K st ∧
    (getOrBuildEdgePoints a b K st).1.length = K + 1 ∧
    readEdgeChain a b K (getOrBuildEdgePoints a b K st).1 =
      (readEdgeChain b a K (getOrBuildEdgePoints a b K st).1).reverse := by
  have hsym := aux_getOrBuild_symm a b K st
  have hidem := aux_getOrBuild_idem a b K st
  have hlen := aux_getOrBuild_len a b K st hwf
  refine ⟨hsym, hidem, ?_, hlen, ?_⟩
  · rw [aux_getOrBuild_symm b a K]
    exact hidem
  · rw [readEdgeChain, readEdgeChain]
    by_cases hle : a ≤ b
    · have hnle : ¬ b ≤ a := by omega
      simp only [hle, if_true, hnle, if_false]
      rw [aux_read_forward _ _ hlen, aux_read_backward _ _ hlen,
        List.reverse_reverse]
    · have hble : b ≤ a := by omega
      simp only [hle, if_false, hble, if_true]
      rw [aux_read_forward _ _ hlen, aux_read_backward _ _ hlen]

/-- C5: clipping any input triangle against the half-space `local z ≥ 0`
(top) or `local z ≤ 0` (bottom) returns a polygon with exactly 0, 3 or 4
vertices, for every choice of square-root function (the counts do not depend
on it). -/
theorem c5_clip_polygon_size {γ : Type} [LinearOrderedField γ] (s : γ → γ)
    (aL bL cL : Vec3 γ) (top : Bool) (r : γ) :
    (clipTriToHemisphere s aL bL cL top r).length = 0 ∨
    (clipTriToHemisphere s aL bL cL top r).length = 3 ∨
    (clipTriToHemisphere s aL bL cL top r).length = 4 := by
  by_cases h0 : 0 ≤ signedPlaneZ aL top <;>
    by_cases h1 : 0 ≤ signedPlaneZ bL top <;>
    by_cases h2 : 0 ≤ signedPlaneZ cL top <;>
    simp [clipTriToHemisphere, clipOnce, h0, h1, h2, List.range_succ]

/-- C6: in exact real arithmetic, every point produced by `snapToEquator` —
which is applied to every new intersection point that capsule-cap clipping
creates (see `clipOnce`) — has axial component exactly zero and lies exactly
on the equator circle `x² + y² = r²`. -/
theorem c6_snap_equator_exact (p : Vec3 ℝ) (r : ℝ) :
    (snapToEquator Real.sqrt p r).z = 0 ∧
    (snapToEquator Real.sqrt p r).x ^ 2 + (snapToEquator Real.sqrt p r).y ^ 2 =
      r ^ 2 := by
  simp only [snapToEquator]
  split
  · exact ⟨rfl, by ring⟩
  · rename_i h
    refine ⟨rfl, ?_⟩
    have hnn : (0 : ℝ) ≤ p.x * p.x + p.y * p.y :=
      add_nonneg (mul_self_nonneg p.x) (mul_self_nonneg p.y)
    have hlen : Real.sqrt (p.x * p.x + p.y * p.y) ≠ 0 := by
      intro h0
      rw [h0] at h
      apply h
      have hq : ((((1 : ℚ) / 100000000000000000000 : ℚ) : ℝ)) > 0 := by
        norm_num
      exact hq
    have hne : p.x * p.x + p.y * p.y ≠ 0 := by
      intro h0
      exact hlen (by rw [h0, Real.sqrt_zero])
    field_simp
    ring

/-- C7: rebuilding the registered flat cube (8 vertices, 12 triangles) with a
0° crease threshold (`cosThreshold = cos 0° = 1`) yields exactly 24 output
vertices; rebuilding with a 180° threshold (`cosThreshold = cos 180° = -1`)
yields 8 (hence at most 8) output vertices, each of whose normals is the
normalization of the sum of the unit normals of its adjoining triangles —
all twelve cube triangles having equal area, this is the direction of the
area-weighted average of the adjoining face normals. -/
theorem c7_cube_crease_rebuild :
    (buildCreasedVertexPNFromVerticesAndIndices cubeVertices cubeIndices
      1).vertices.length = 24 ∧
    (buildCreasedVertexPNFromVerticesAndIndices cubeVertices cubeIndices
      (-1)).vertices.length = 8 ∧
    (buildCreasedVertexPNFromVerticesAndIndices cubeVertices cubeIndices
      (-1)).vertices.map (fun v => v.normal) =
      (buildCreasedVertexPNFromVerticesAndIndices cubeVertices cubeIndices
        (-1)).vertices.map
        (fun v => vnormalize qsqrt (cubeAdjoiningUnitNormalSum v.pos)) := by
  refine ⟨by decide, by decide, by decide⟩

theorem c1_edge_chain_shared_witness :
    (0 : ℕ) ≠ 4 ∧
    (∀ kv ∈ (⟨gSphereIcosaVerts.map (vnormalize qsqrt), [], []⟩ :
        SphereBuildState).edgePoints, kv.2.length = 2 + 1) ∧
    (getOrBuildEdgePoints 0 4 2
      ⟨gSphereIcosaVerts.map (vnormalize qsqrt), [], []⟩).1.length = 2 + 1 :=
  ⟨by decide, by simp,
   (c1_edge_chain_shared 0 4 2
     ⟨gSphereIcosaVerts.map (vnormalize qsqrt), [], []⟩
     (by decide) (by simp)).2.2.2.1⟩

theorem aux_bodyStep_inv {γ : Type} [LinearOrderedField γ] (s : γ → γ)
    (ring : List (γ × γ)) (r l : γ) (acc : BodyState γ) (i : ℕ)
    (h : BodyInv acc) : BodyInv (buildCapsuleBodyStep s ring r l acc i) := by
  obtain ⟨averts, aindices, apT, apB, afp⟩ := acc
  obtain ⟨hidx, hmod, hprev⟩ := h
  cases afp with
  | true =>
      refine ⟨?_, ?_, ?_⟩
      · intro i2 hi2
        simp only [buildCapsuleBodyStep, if_true] at hi2 ⊢
        have h2 := hidx i2 hi2
        simp only [List.length_append, List.length_cons, List.length_nil]
        simp only at h2
        omega
      · simp only [buildCapsuleBodyStep, if_true]
        simpa using hmod
      · intro _
        simp only [buildCapsuleBodyStep, if_true, List.length_append,
          List.length_cons, List.length_nil]
        omega
  | false =>
      have hp := hprev rfl
      simp only at hp hidx hmod
      refine ⟨?_, ?_, ?_⟩
      · intro i2 hi2
        simp only [buildCapsuleBodyStep, Bool.false_eq_true, if_false]
          at hi2 ⊢
        simp only [List.length_append, List.length_cons, List.length_nil]
        rcases List.mem_append.mp hi2 with h1 | h1
        · have h2 := hidx i2 h1
          omega
        · simp only [List.mem_cons, List.not_mem_nil, or_false] at h1
          rcases h1 with rfl | rfl | rfl | rfl | rfl | rfl <;> omega
      · simp only [buildCapsuleBodyStep, Bool.false_eq_true, if_false,
          List.length_append, List.length_cons, List.length_nil]
        omega
      · intro _
        simp only [buildCapsuleBodyStep, Bool.false_eq_true, if_false,
          List.length_append, List.length_cons, List.length_nil]
        omega

theorem aux_body_inv {γ : Type} [LinearOrderedField γ] (s : γ → γ)
    (div : ℕ) (r l : γ) :
    (∀ i ∈ (buildCapsuleBody s div r l).2,
      i < (buildCapsuleBody s div r l).1.length) ∧
    (buildCapsuleBody s div r l).2.length % 3 = 0 := by
  have hfold : ∀ (js : List ℕ) (acc : BodyState γ), BodyInv acc →
      BodyInv (js.foldl
        (buildCapsuleBodyStep s (buildCubedSphereEquatorRingXY s div) r l)
        acc) := by
    intro js
    induction js with
    | nil => intro acc h; exact h
    | cons j rest ih =>
        intro acc h
        rw [List.foldl_cons]
        exact ih _ (aux_bodyStep_inv s _ r l acc j h)
  have h := hfold
    (List.range ((buildCubedSphereEquatorRingXY s div).length + 1))
    ⟨[], [], 0, 0, true⟩ ⟨by simp, by simp, by simp⟩
  obtain ⟨h1, h2, _⟩ := h
  exact ⟨h1, h2⟩

theorem aux_getD_mem_or (l : List ℕ) (n d : ℕ) :
    l.getD n d ∈ l ∨ l.getD n d = d := by
  by_cases h : n < l.length
  · left
    rw [List.getD_eq_getElem l d h]
    exact List.getElem_mem h
  · right
    rw [List.getD_eq_default]
    omega

theorem aux_getD_row_mem_or (g : List (List ℕ)) (n : ℕ) :
    g.getD n [] ∈ g ∨ g.getD n [] = [] := by
  by_cases h : n < g.length
  · left
    rw [List.getD_eq_getElem g [] h]
    exact List.getElem_mem h
  · right
    rw [List.getD_eq_default]
    omega

theorem aux_getOrBuild_inv (a b K : ℕ) (st : SphereBuildState)
    (ha : a < st.pos.length) (hb : b < st.pos.length) (hs : SInv st) :
    SInv (getOrBuildEdgePoints a b K st).2 ∧
    st.pos.length ≤ (getOrBuildEdgePoints a b K st).2.pos.length ∧
    ∀ i ∈ (getOrBuildEdgePoints a b K st).1,
      i < (getOrBuildEdgePoints a b K st).2.pos.length := by
  obtain ⟨h12, htbl⟩ := hs
  cases h : lookupEdge st.edgePoints ⟨min a b, max a b⟩ with
  | some chain =>
      simp only [getOrBuildEdgePoints, h]
      exact ⟨⟨h12, htbl⟩, Nat.le_refl _,
        fun i hi => htbl _ (aux_lookup_mem _ _ _ h) i hi⟩
  | none =>
      simp only [getOrBuildEdgePoints, h]
      have hmin : min a b < st.pos.length :=
        Nat.lt_of_le_of_lt (Nat.min_le_left a b) ha
      have hmax : max a b < st.pos.length := Nat.max_lt.mpr ⟨ha, hb⟩
      have hchain : ∀ i ∈ (List.range (K + 1)).map (fun t =>
          if t = K then (⟨min a b, max a b⟩ : EdgeKey).b
          else if t = 0 then (⟨min a b, max a b⟩ : EdgeKey).a
          else st.pos.length + (t - 1)),
          i < st.pos.length + (K - 1) := by
        intro i hi
        simp only [List.mem_map, List.mem_range] at hi
        obtain ⟨t, ht, rfl⟩ := hi
        by_cases h1 : t = K
        · rw [if_pos h1]
          omega
        · rw [if_neg h1]
          by_cases h0 : t = 0
          · rw [if_pos h0]
            omega
          · rw [if_neg h0]
            omega
      refine ⟨⟨?_, ?_⟩, ?_, ?_⟩
      · simp only [List.length_append, List.length_map, List.length_range]
        omega
      · intro kv hkv
        rcases List.mem_append.mp hkv with h1 | h1
        · intro i hi
          have h2 := htbl _ h1 i hi
          simp only [List.length_append, List.length_map, List.length_range]
          omega
        · simp only [List.mem_singleton] at h1
          subst h1
          intro i hi
          have h2 := hchain i hi
          simp only [List.length_append, List.length_map, List.length_range]
          omega
      · simp only [List.length_append, List.length_map, List.length_range]
        omega
      · intro i hi
        have h2 := hchain i hi
        simp only [List.length_append, List.length_map, List.length_range]
        omega

theorem aux_getFaceLattice_inv (A B C : ℕ) (i j K : ℕ)
    (st : SphereBuildState) (hA : A < 12) (hB : B < 12) (hC : C < 12)
    (hs : SInv st) :
    SInv (getFaceLatticeIndex A B C i j K st).2 ∧
    st.pos.length ≤ (getFaceLatticeIndex A B C i j K st).2.pos.length ∧
    (getFaceLatticeIndex A B C i j K st).1 <
      (getFaceLatticeIndex A B C i j K st).2.pos.length := by
  have h12 := hs.1
  have hA2 : A < st.pos.length := by omega
  have hB2 : B < st.pos.length := by omega
  have hC2 : C < st.pos.length := by omega
  rw [getFaceLatticeIndex]
  by_cases h1 : i = 0 ∧ j = 0
  · rw [if_pos h1]
    exact ⟨hs, Nat.le_refl _, hA2⟩
  · rw [if_neg h1]
    by_cases h2 : i = K ∧ j = 0
    · rw [if_pos h2]
      exact ⟨hs, Nat.le_refl _, hB2⟩
    · rw [if_neg h2]
      by_cases h3 : i = 0 ∧ j = K
      · rw [if_pos h3]
        exact ⟨hs, Nat.le_refl _, hC2⟩
      · rw [if_neg h3]
        by_cases h4 : j = 0
        · rw [if_pos h4]
          have hh := aux_getOrBuild_inv A B K st hA2 hB2 hs
          cases hE : getOrBuildEdgePoints A B K st with
          | mk e st1 =>
              rw [hE] at hh
              dsimp only at hh
              dsimp only
              refine ⟨hh.1, hh.2.1, ?_⟩
              rcases aux_getD_mem_or e (if A ≤ B then i else K - i) 0
                  with hm | hm
              · exact hh.2.2 _ hm
              · rw [hm]
                have h13 := hh.1.1
                omega
        · rw [if_neg h4]
          by_cases h5 : i = 0
          · rw [if_pos h5]
            have hh := aux_getOrBuild_inv A C K st hA2 hC2 hs
            cases hE : getOrBuildEdgePoints A C K st with
            | mk e st1 =>
                rw [hE] at hh
                dsimp only at hh
                dsimp only
                refine ⟨hh.1, hh.2.1, ?_⟩
                rcases aux_getD_mem_or e (if A ≤ C then j else K - j) 0
                    with hm | hm
                · exact hh.2.2 _ hm
                · rw [hm]
                  have h13 := hh.1.1
                  omega
          · rw [if_neg h5]
            by_cases h6 : i + j = K
            · rw [if_pos h6]
              have hh := aux_getOrBuild_inv B C K st hB2 hC2 hs
              cases hE : getOrBuildEdgePoints B C K st with
              | mk e st1 =>
                  rw [hE] at hh
                  dsimp only at hh
                  dsimp only
                  refine ⟨hh.1, hh.2.1, ?_⟩
                  rcases aux_getD_mem_or e
                      (if B ≤ C then K - i else K - (K - i)) 0 with hm | hm
                  · exact hh.2.2 _ hm
                  · rw [hm]
                    have h13 := hh.1.1
                    omega
            · rw [if_neg h6]
              obtain ⟨hs1, hs2⟩ := hs
              refine ⟨⟨?_, ?_⟩, ?_, ?_⟩
              · simp only [List.length_append, List.length_cons,
                  List.length_nil]
                omega
              · intro kv hkv
                intro i2 hi2
                have := hs2 kv hkv i2 hi2
                simp only [List.length_append, List.length_cons,
                  List.length_nil]
                omega
              · simp only [List.length_append, List.length_cons,
                  List.length_nil]
                omega
              · simp only [List.length_append, List.length_cons,
                  List.length_nil]
                omega

theorem aux_mapState_inv {β γ : Type} (P : γ → ℕ → Prop)
    (hP : ∀ y n m, n ≤ m → P y n → P y m)
    (f : β → SphereBuildState → γ × SphereBuildState)
    (hf : ∀ b st, SInv st →
      SInv (f b st).2 ∧ st.pos.length ≤ (f b st).2.pos.length ∧
        P (f b st).1 (f b st).2.pos.length) :
    ∀ (js : List β) (st : SphereBuildState), SInv st →
      SInv (mapState f js st).2 ∧
      st.pos.length ≤ (mapState f js st).2.pos.length ∧
      ∀ y ∈ (mapState f js st).1, P y (mapState f js st).2.pos.length := by
  intro js
  induction js with
  | nil =>
      intro st hs
      exact ⟨hs, Nat.le_refl _, by simp [mapState]⟩
  | cons x xs ih =>
      intro st hs
      have h1 := hf x st hs
      cases hE : f x st with
      | mk y st1 =>
          rw [hE] at h1
          dsimp only at h1
          have h2 := ih st1 h1.1
          cases hE2 : mapState f xs st1 with
          | mk ys st2 =>
              rw [hE2] at h2
              dsimp only at h2
              rw [mapState, hE]
              dsimp only
              rw [hE2]
              dsimp only
              refine ⟨h2.1, Nat.le_trans h1.2.1 h2.2.1, ?_⟩
              intro z hz
              rcases List.mem_cons.mp hz with rfl | hz2
              · exact hP _ _ _ h2.2.1 h1.2.2
              · exact h2.2.2 z hz2

theorem aux_buildFaceGrid_inv (A B C K : ℕ) (st : SphereBuildState)
    (hA : A < 12) (hB : B < 12) (hC : C < 12) (hs : SInv st) :
    SInv (buildFaceGrid A B C K st).2 ∧
    st.pos.length ≤ (buildFaceGrid A B C K st).2.pos.length ∧
    ∀ row ∈ (buildFaceGrid A B C K st).1, ∀ i ∈ row,
      i < (buildFaceGrid A B C K st).2.pos.length := by
  exact aux_mapState_inv (fun row n => ∀ i ∈ row, i < n)
    (fun row n m hnm h i hi => Nat.lt_of_lt_of_le (h i hi) hnm)
    _
    (fun b st hs2 =>
      aux_mapState_inv (fun idx n => idx < n)
        (fun idx n m hnm h => Nat.lt_of_lt_of_le h hnm)
        _
        (fun j st3 hs3 => aux_getFaceLattice_inv A B C b j K st3 hA hB hC hs3)
        (List.range (K - b + 1)) st hs2)
    (List.range (K + 1)) st hs

theorem aux_triangulateFace_mem (grid : List (List ℕ)) (K : ℕ) :
    ∀ x ∈ triangulateFace grid K, (∃ row ∈ grid, x ∈ row) ∨ x = 0 := by
  intro x hx
  rw [triangulateFace] at hx
  simp only [List.mem_flatMap, List.mem_range] at hx
  obtain ⟨i, hi, j, hj, hcell⟩ := hx
  have hentry : ∀ i2 j2 : ℕ, (∃ row ∈ grid, (grid.getD i2 []).getD j2 0 ∈ row) ∨
      (grid.getD i2 []).getD j2 0 = 0 := by
    intro i2 j2
    rcases aux_getD_row_mem_or grid i2 with hrow | hrow
    · rcases aux_getD_mem_or (grid.getD i2 []) j2 0 with hm | hm
      · exact Or.inl ⟨grid.getD i2 [], hrow, hm⟩
      · exact Or.inr hm
    · rw [hrow]
      right
      simp [List.getD]
  rcases List.mem_append.mp hcell with hc | hc
  · simp only [List.mem_cons, List.not_mem_nil, or_false] at hc
    rcases hc with rfl | rfl | rfl
    · exact hentry i j
    · exact hentry (i + 1) j
    · exact hentry i (j + 1)
  · by_cases hlt : j < K - i - 1
    · rw [if_pos hlt] at hc
      simp only [List.mem_cons, List.not_mem_nil, or_false] at hc
      rcases hc with rfl | rfl | rfl
      · exact hentry (i + 1) j
      · exact hentry (i + 1) (j + 1)
      · exact hentry i (j + 1)
    · rw [if_neg hlt] at hc
      simp at hc

theorem aux_buildIcosphere_inv (K : ℕ) :
    ∀ i ∈ (buildIcosphere K).2, i < (buildIcosphere K).1.pos.length := by
  have hfold : ∀ (faces : List (ℕ × ℕ × ℕ)),
      (∀ f ∈ faces, f.1 < 12 ∧ f.2.1 < 12 ∧ f.2.2 < 12) →
      ∀ (acc : SphereBuildState × List ℕ), SInv acc.1 →
      (∀ i ∈ acc.2, i < acc.1.pos.length) →
      SInv (faces.foldl
        (fun acc face =>
          let A := face.2.2
          let B := face.2.1
          let C := face.1
          let (grid, st1) := buildFaceGrid A B C K acc.1
          (st1, acc.2 ++ triangulateFace grid K))
        acc).1 ∧
      acc.1.pos.length ≤ (faces.foldl
        (fun acc face =>
          let A := face.2.2
          let B := face.2.1
          let C := face.1
          let (grid, st1) := buildFaceGrid A B C K acc.1
          (st1, acc.2 ++ triangulateFace grid K))
        acc).1.pos.length ∧
      ∀ i ∈ (faces.foldl
        (fun acc face =>
          let A := face.2.2
          let B := face.2.1
          let C := face.1
          let (grid, st1) := buildFaceGrid A B C K acc.1
          (st1, acc.2 ++ triangulateFace grid K))
        acc).2, i < (faces.foldl
        (fun acc face =>
          let A := face.2.2
          let B := face.2.1
          let C := face.1
          let (grid, st1) := buildFaceGrid A B C K acc.1
          (st1, acc.2 ++ triangulateFace grid K))
        acc).1.pos.length := by
    intro faces
    induction faces with
    | nil =>
        intro _ acc h1 h2
        exact ⟨h1, Nat.le_refl _, h2⟩
    | cons f rest ih =>
        intro hb acc h1 h2
        have hbf := hb f (List.mem_cons_self _ _)
        have hg := aux_buildFaceGrid_inv f.2.2 f.2.1 f.1 K acc.1
          hbf.2.2 hbf.2.1 hbf.1 h1
        rw [List.foldl_cons]
        dsimp only
        cases hE : buildFaceGrid f.2.2 f.2.1 f.1 K acc.1 with
        | mk grid st1 =>
            rw [hE] at hg
            dsimp only at hg
            dsimp only
            have hnew : ∀ i ∈ acc.2 ++ triangulateFace grid K,
                i < st1.pos.length := by
              intro i hi
              rcases List.mem_append.mp hi with hi1 | hi1
              · exact Nat.lt_of_lt_of_le (h2 i hi1) hg.2.1
              · rcases aux_triangulateFace_mem grid K i hi1 with
                  ⟨row, hrow, hir⟩ | rfl
                · exact hg.2.2 row hrow i hir
                · have h12 := hg.1.1
                  omega
            have := ih (fun f2 hf2 => hb f2 (List.mem_cons_of_mem _ hf2))
              (st1, acc.2 ++ triangulateFace grid K) hg.1 hnew
            refine ⟨this.1, ?_, this.2.2⟩
            exact Nat.le_trans hg.2.1 this.2.1
  have hinit : SInv (⟨gSphereIcosaVerts.map (vnormalize qsqrt), [], []⟩ :
      SphereBuildState) := by
    constructor
    · simp [gSphereIcosaVerts]
    · intro kv hkv
      simp at hkv
  have hfaces : ∀ f ∈ gSphereIcosaFaces,
      f.1 < 12 ∧ f.2.1 < 12 ∧ f.2.2 < 12 := by decide
  have h := hfold gSphereIcosaFaces hfaces
    (⟨gSphereIcosaVerts.map (vnormalize qsqrt), [], []⟩, []) hinit (by simp)
  simp only [buildIcosphere]
  exact h.2.2

theorem aux_lookupVKey_mem (m : List (VKey × ℕ)) (k : VKey) (v : ℕ)
    (h : lookupVKey m k = some v) : (k, v) ∈ m := by
  induction m with
  | nil => simp [lookupVKey] at h
  | cons p rest ih =>
      cases p with
      | mk k2 v2 =>
          rw [lookupVKey] at h
          by_cases hk : k2 = k
          · rw [if_pos hk] at h
            injection h with h2
            rw [hk, h2]
            exact List.mem_cons_self _ _
          · rw [if_neg hk] at h
            exact List.mem_cons_of_mem _ (ih h)

theorem aux_addVertexWelded_spec {γ : Type} [LinearOrderedField γ]
    [FloorRing γ] (s : γ → γ) (verts : List (VertexPN γ))
    (wmap : List (VKey × ℕ)) (pos nrm : Vec3 γ)
    (hm : WeldMapValid wmap verts.length) :
    (addVertexWelded s verts wmap pos nrm).1 <
      (addVertexWelded s verts wmap pos nrm).2.1.length ∧
    verts.length ≤ (addVertexWelded s verts wmap pos nrm).2.1.length ∧
    WeldMapValid (addVertexWelded s verts wmap pos nrm).2.2
      (addVertexWelded s verts wmap pos nrm).2.1.length := by
  rw [addVertexWelded]
  cases h : lookupVKey wmap
      ⟨qf pos.x ((weldQuant : ℚ) : γ), qf pos.y ((weldQuant : ℚ) : γ),
       qf pos.z ((weldQuant : ℚ) : γ), qf nrm.x ((weldQuant : ℚ) : γ),
       qf nrm.y ((weldQuant : ℚ) : γ), qf nrm.z ((weldQuant : ℚ) : γ)⟩ with
  | some idx =>
      simp only
      exact ⟨hm _ (aux_lookupVKey_mem _ _ _ h), Nat.le_refl _, hm⟩
  | none =>
      simp only [List.length_append, List.length_cons, List.length_nil]
      refine ⟨by omega, by omega, ?_⟩
      intro kv hkv
      rcases List.mem_append.mp hkv with h1 | h1
      · have := hm _ h1
        omega
      · simp only [List.mem_singleton] at h1
        subst h1
        simp only
        omega

theorem aux_emitTriLocal_inv {γ : Type} [LinearOrderedField γ] [FloorRing γ]
    (s : γ → γ) (center : Vec3 γ) (acc : WeldState γ)
    (tri : Vec3 γ × Vec3 γ × Vec3 γ) (h : WeldInv acc) :
    WeldInv (emitTriLocal s center acc tri) := by
  obtain ⟨hidx, hmap, hmod⟩ := h
  rw [emitTriLocal]
  have s1 := aux_addVertexWelded_spec s acc.verts acc.wmap (center + tri.1)
    (vnormalize s tri.1) hmap
  obtain ⟨h1a, h1b, h1c⟩ := s1
  have s2 := aux_addVertexWelded_spec s _ _ (center + tri.2.1)
    (vnormalize s tri.2.1) h1c
  obtain ⟨h2a, h2b, h2c⟩ := s2
  have s3 := aux_addVertexWelded_spec s _ _ (center + tri.2.2)
    (vnormalize s tri.2.2) h2c
  obtain ⟨h3a, h3b, h3c⟩ := s3
  refine ⟨?_, h3c, ?_⟩
  · intro i hi
    simp only [List.mem_append] at hi
    rcases hi with hi | hi
    · exact Nat.lt_of_lt_of_le (hidx i hi) (Nat.le_trans h1b
        (Nat.le_trans h2b h3b))
    · simp only [List.mem_cons, List.not_mem_nil, or_false] at hi
      rcases hi with rfl | rfl | rfl
      · exact Nat.lt_of_lt_of_le h1a (Nat.le_trans h2b h3b)
      · exact Nat.lt_of_lt_of_le h2a h3b
      · exact h3a
  · simp only [List.length_append, List.length_cons, List.length_nil]
    omega

theorem aux_capFold_inv {γ : Type} [LinearOrderedField γ] [FloorRing γ]
    (s : γ → γ) (center : Vec3 γ)
    (tris : List (Vec3 γ × Vec3 γ × Vec3 γ)) (acc : WeldState γ)
    (h : WeldInv acc) : WeldInv (tris.foldl (emitTriLocal s center) acc) := by
  induction tris generalizing acc with
  | nil => exact h
  | cons t rest ih =>
      rw [List.foldl_cons]
      exact ih _ (aux_emitTriLocal_inv s center acc t h)

theorem aux_cap_inv {γ : Type} [LinearOrderedField γ] [FloorRing γ]
    (s : γ → γ) (top : Bool) (div : ℕ) (r l : γ) :
    (∀ i ∈ (buildHemisphereCapCubedSphere s top div r l).2,
      i < (buildHemisphereCapCubedSphere s top div r l).1.length) ∧
    (buildHemisphereCapCubedSphere s top div r l).2.length % 3 = 0 := by
  have h := aux_capFold_inv s
    (if top then (⟨0, 0, l⟩ : Vec3 γ) else ⟨0, 0, -l⟩)
    (capClippedTris s top div r) ⟨[], [], []⟩
    ⟨by simp, by intro kv hkv; simp at hkv, by simp⟩
  obtain ⟨h1, _, h3⟩ := h
  exact ⟨h1, h3⟩

/-- C9: for every mesh produced by the sphere builder (any subdivision
factor) and the capsule builders (any subdivision factor, radius, length,
top/bottom side and square-root function — in particular all quality
levels), every emitted index is strictly smaller than the mesh's vertex
count, and the total number of emitted indices is a multiple of 3. -/
theorem c9_mesh_index_invariants {γ : Type} [LinearOrderedField γ]
    [FloorRing γ] (s : γ → γ) (K div : ℕ) (top : Bool) (r l : γ) :
    (∀ i ∈ (buildIcosphere K).2, i < (buildIcosphere K).1.pos.length) ∧
    (buildIcosphere K).2.length % 3 = 0 ∧
    (∀ i ∈ (buildHemisphereCapCubedSphere s top div r l).2,
       i < (buildHemisphereCapCubedSphere s top div r l).1.length) ∧
    (buildHemisphereCapCubedSphere s top div r l).2.length % 3 = 0 ∧
    (∀ i ∈ (buildCapsuleBody s div r l).2,
       i < (buildCapsuleBody s div r l).1.length) ∧
    (buildCapsuleBody s div r l).2.length % 3 = 0 := by
  refine ⟨aux_buildIcosphere_inv K, ?_, (aux_cap_inv s top div r l).1,
    (aux_cap_inv s top div r l).2, (aux_body_inv s div r l).1,
    (aux_body_inv s div r l).2⟩
  rw [aux_buildIcosphere_length]
  omega

/-- Witness for C9 at concrete members of the quality-independent index
lists: index 1 of the `K = 1` icosphere and index 0 of the `div = 1` cap and
body at rationals. -/
theorem c9_mesh_index_invariants_witness :
    (1 ∈ (buildIcosphere 1).2 ∧ 1 < (buildIcosphere 1).1.pos.length) ∧
    (0 ∈ (buildHemisphereCapCubedSphere qsqrt true 1 (1 : ℚ) 1).2 ∧
      0 < (buildHemisphereCapCubedSphere qsqrt true 1 (1 : ℚ) 1).1.length) ∧
    (0 ∈ (buildCapsuleBody qsqrt 1 (1 : ℚ) 1).2 ∧
      0 < (buildCapsuleBody qsqrt 1 (1 : ℚ) 1).1.length) :=
  ⟨⟨by decide,
    (c9_mesh_index_invariants qsqrt 1 1 true (1 : ℚ) 1).1 1 (by decide)⟩,
   ⟨by decide,
    (c9_mesh_index_invariants qsqrt 1 1 true (1 : ℚ) 1).2.2.1 0 (by decide)⟩,
   ⟨by decide,
    (c9_mesh_index_invariants qsqrt 1 1 true (1 : ℚ) 1).2.2.2.2.1 0
      (by decide)⟩⟩

end Drawstuff
